import Mathlib

/-!
Verification of the task-orchestration core of a web-scraping agent:
shallow embeddings of the result cache (lib/managers/cacheManager.js),
the credential rotator (ApiKeyManager), the proxy rotator
(lib/managers/proxyManager.js) and the scheduler (lib/scheduler.js),
with theorems checking the design document's claims about them.

Conventions used throughout:
- JavaScript `Map` objects are modelled as association lists with a
  `setEntry` update that replaces any previous binding of the key;
  `Map.get` is `List.lookup`.
- Timestamps (`Date.now()` values, milliseconds) are modelled as `Int`.
- JavaScript numbers that the code only ever combines with integer
  arithmetic are modelled as `Nat`/`Int`; the retry-delay computation,
  which genuinely multiplies by fractions, is modelled over `ℚ` with
  `Int.floor` for `Math.floor`.
- `x || default` on a numeric config value treats `0` like an absent
  value (JavaScript falsiness); this is modelled explicitly wherever it
  occurs.
- Unbounded recursion in the source is modelled with an explicit fuel
  argument; a result of "out of fuel at every fuel" is how divergence of
  the original is expressed.
-/

set_option maxRecDepth 20000

/-! ## SHA-256 (crypto.createHash('sha256'), used by cacheManager.generateKey)

A direct implementation of FIPS 180-4 SHA-256 over byte lists, with
32-bit words represented as `Nat` reduced modulo `2^32`. -/

/-- Modulus for 32-bit words. -/
def M32 : Nat := 4294967296

/-- Right rotation of a 32-bit word by `n` bits. -/
def rotr (n x : Nat) : Nat := ((x >>> n) ||| (x <<< (32 - n))) % M32

/-- SHA-256 choice function Ch(x,y,z). -/
def shaCh (x y z : Nat) : Nat := Nat.xor (Nat.land x y) (Nat.land (Nat.xor x 4294967295) z)

/-- SHA-256 majority function Maj(x,y,z). -/
def shaMaj (x y z : Nat) : Nat :=
  Nat.xor (Nat.xor (Nat.land x y) (Nat.land x z)) (Nat.land y z)

/-- SHA-256 Σ0. -/
def bigSigma0 (x : Nat) : Nat := Nat.xor (Nat.xor (rotr 2 x) (rotr 13 x)) (rotr 22 x)

/-- SHA-256 Σ1. -/
def bigSigma1 (x : Nat) : Nat := Nat.xor (Nat.xor (rotr 6 x) (rotr 11 x)) (rotr 25 x)

/-- SHA-256 σ0. -/
def smallSigma0 (x : Nat) : Nat := Nat.xor (Nat.xor (rotr 7 x) (rotr 18 x)) (x >>> 3)

/-- SHA-256 σ1. -/
def smallSigma1 (x : Nat) : Nat := Nat.xor (Nat.xor (rotr 17 x) (rotr 19 x)) (x >>> 10)

/-- The 64 SHA-256 round constants. -/
def shaK : List Nat :=
  [1116352408, 1899447441, 3049323471, 3921009573, 961987163, 1508970993,
   2453635748, 2870763221, 3624381080, 310598401, 607225278, 1426881987,
   1925078388, 2162078206, 2614888103, 3248222580, 3835390401, 4022224774,
   264347078, 604807628, 770255983, 1249150122, 1555081692, 1996064986,
   2554220882, 2821834349, 2952996808, 3210313671, 3336571891, 3584528711,
   113926993, 338241895, 666307205, 773529912, 1294757372, 1396182291,
   1695183700, 1986661051, 2177026350, 2456956037, 2730485921, 2820302411,
   3259730800, 3345764771, 3516065817, 3600352804, 4094571909, 275423344,
   430227734, 506948616, 659060556, 883997877, 958139571, 1322822218,
   1537002063, 1747873779, 1955562222, 2024104815, 2227730452, 2361852424,
   2428436474, 2756734187, 3204031479, 3329325298]

/-- The SHA-256 initial hash value. -/
def shaH0 : List Nat :=
  [1779033703, 3144134277, 1013904242, 2773480762,
   1359893119, 2600822924, 528734635, 1541459225]

/-- Big-endian 8-byte encoding of the message bit length. -/
def lenBytes (bitLen : Nat) : List Nat :=
  (List.range 8).map (fun i => (bitLen >>> (8 * (7 - i))) % 256)

/-- SHA-256 message padding: append 0x80, zero bytes to 56 mod 64, then
the 64-bit big-endian bit length. -/
def padMessage (msg : List Nat) : List Nat :=
  let zeros := (64 + 56 - ((msg.length + 1) % 64)) % 64
  msg ++ 0x80 :: List.replicate zeros 0 ++ lenBytes (8 * msg.length)

/-- Group bytes into big-endian 32-bit words. -/
def toWords : List Nat → List Nat
  | b0 :: b1 :: b2 :: b3 :: rest => (b0 * 16777216 + b1 * 65536 + b2 * 256 + b3) :: toWords rest
  | _ => []

/-- Split a byte list into 64-byte blocks (fuel-driven; the fuel is set
to the list length so every block is produced). -/
def chunksOf64 : Nat → List Nat → List (List Nat)
  | 0, _ => []
  | _, [] => []
  | n + 1, l => l.take 64 :: chunksOf64 n (l.drop 64)

/-- Extend a 16-word block to the 64-word message schedule. -/
def extendSchedule : Nat → List Nat → List Nat
  | 0, w => w
  | n + 1, w =>
      let t := w.length
      let nw := (smallSigma1 (w.getD (t - 2) 0) + w.getD (t - 7) 0 +
                 smallSigma0 (w.getD (t - 15) 0) + w.getD (t - 16) 0) % M32
      extendSchedule n (w ++ [nw])

/-- The eight SHA-256 working registers. -/
structure Regs where
  a : Nat
  b : Nat
  c : Nat
  d : Nat
  e : Nat
  f : Nat
  g : Nat
  h : Nat

/-- One SHA-256 compression round. -/
def shaRound (r : Regs) (kw : Nat × Nat) : Regs :=
  let t1 := (r.h + bigSigma1 r.e + shaCh r.e r.f r.g + kw.1 + kw.2) % M32
  let t2 := (bigSigma0 r.a + shaMaj r.a r.b r.c) % M32
  ⟨(t1 + t2) % M32, r.a, r.b, r.c, (r.d + t1) % M32, r.e, r.f, r.g⟩

/-- Process one 64-byte block, updating the intermediate hash value. -/
def processBlock (hs : List Nat) (block : List Nat) : List Nat :=
  let w := extendSchedule 48 (toWords block)
  let r0 : Regs := ⟨hs.getD 0 0, hs.getD 1 0, hs.getD 2 0, hs.getD 3 0,
                    hs.getD 4 0, hs.getD 5 0, hs.getD 6 0, hs.getD 7 0⟩
  let r := (shaK.zip w).foldl shaRound r0
  [(hs.getD 0 0 + r.a) % M32, (hs.getD 1 0 + r.b) % M32, (hs.getD 2 0 + r.c) % M32,
   (hs.getD 3 0 + r.d) % M32, (hs.getD 4 0 + r.e) % M32, (hs.getD 5 0 + r.f) % M32,
   (hs.getD 6 0 + r.g) % M32, (hs.getD 7 0 + r.h) % M32]

/-- SHA-256 digest of a byte list, as eight 32-bit words. -/
def sha256 (msg : List Nat) : List Nat :=
  let padded := padMessage msg
  (chunksOf64 padded.length padded).foldl processBlock shaH0

/-- Lower-case hexadecimal digit (for nibbles, `Nat.digitChar` is the
0-9a-f table). -/
def hexChar (n : Nat) : Char := Nat.digitChar n

/-- Eight hex characters of one 32-bit word, most significant nibble first. -/
def wordHex (w : Nat) : List Char :=
  (List.range 8).map (fun i => hexChar ((w >>> (4 * (7 - i))) % 16))

/-- Hex digest of a byte list, as produced by `digest('hex')`. -/
def sha256Hex (msg : List Nat) : String := String.mk ((sha256 msg).flatMap wordHex)

/-- UTF-8 encoding of one code point. -/
def utf8Bytes (c : Char) : List Nat :=
  let n := c.toNat
  if n < 128 then [n]
  else if n < 2048 then [192 + n / 64, 128 + n % 64]
  else if n < 65536 then [224 + n / 4096, 128 + (n / 64) % 64, 128 + n % 64]
  else [240 + n / 262144, 128 + (n / 4096) % 64, 128 + (n / 64) % 64, 128 + n % 64]

/-- UTF-8 bytes of a string, as `hash.update(string)` consumes them. -/
def strBytes (s : String) : List Nat := s.data.flatMap utf8Bytes

/-- Replace-or-insert update for a JavaScript `Map` (also `INSERT OR
REPLACE` on a primary key). -/
def setEntry {α : Type} (l : List (String × α)) (k : String) (v : α) : List (String × α) :=
  (k, v) :: l.filter (fun p => p.1 ≠ k)

namespace CacheManager

/-! ## JSON values and JSON.stringify (used by cacheManager.generateKey)

`generateKey` hashes `typeof data === 'string' ? data : JSON.stringify(data)`.
JSON values are modelled with object fields kept in insertion order, which is
the order `JSON.stringify` serializes the own enumerable string keys of a
plain object. Numbers are modelled by their integer fragment. -/

inductive Json where
  | str (s : String)
  | num (n : Int)
  | bool (b : Bool)
  | null
  | arr (elems : List Json)
  | obj (fields : List (String × Json))

/-- JSON string escaping for one character, per `JSON.stringify`. -/
def escapeChar (c : Char) : List Char :=
  if c = '"' then ['\\', '"']
  else if c = '\\' then ['\\', '\\']
  else if c = '\n' then ['\\', 'n']
  else if c = '\r' then ['\\', 'r']
  else if c = '\t' then ['\\', 't']
  else if c = '\x08' then ['\\', 'b']
  else if c = '\x0c' then ['\\', 'f']
  else if c.toNat < 32 then
    ['\\', 'u', '0', '0', hexChar (c.toNat / 16), hexChar (c.toNat % 16)]
  else [c]

/-- Quoted, escaped JSON string literal. -/
def quoteString (s : String) : String :=
  String.mk ('"' :: s.data.flatMap escapeChar ++ ['"'])

mutual

/-- `JSON.stringify` for the modelled JSON fragment. -/
def stringify : Json → String
  | .str s => quoteString s
  | .num n => toString n
  | .bool b => if b then "true" else "false"
  | .null => "null"
  | .arr xs => "[" ++ stringifyItems xs ++ "]"
  | .obj fs => String.mk ['\x7b'] ++ stringifyFields fs ++ String.mk ['\x7d']

/-- Comma-separated serialization of array elements. -/
def stringifyItems : List Json → String
  | [] => ""
  | [x] => stringify x
  | x :: rest => stringify x ++ "," ++ stringifyItems rest

/-- Comma-separated serialization of object fields, in insertion order. -/
def stringifyFields : List (String × Json) → String
  | [] => ""
  | [(k, v)] => quoteString k ++ ":" ++ stringify v
  | (k, v) :: rest => quoteString k ++ ":" ++ stringify v ++ "," ++ stringifyFields rest

end

/-- The string actually hashed by `generateKey`:
`typeof data === 'string' ? data : JSON.stringify(data)`. -/
def hashInput : Json → String
  | .str s => s
  | d => stringify d

/-- cacheManager.generateKey: category-namespaced SHA-256 of the
serialized key material. -/
def generateKey (category : String) (data : Json) : String :=
  category ++ ":" ++ sha256Hex (strBytes (hashInput data))

end CacheManager

namespace CacheManager

/-! ## Result cache (lib/managers/cacheManager.js)

The manager is modelled as pure functions over an explicit state:
`ready`/`enabled` flags and configuration, plus the backend contents.
`get` returns the stored serialized payload (the JavaScript code applies
`JSON.parse` to the same string before returning; hit/miss behaviour and
overwriting are unaffected by that decoding). A `fault : Bool` parameter
models the backend client throwing during the operation; the `try/catch`
in every method turns that into a `null`/`false` result. -/

/-- Which backend the cache was configured with. -/
inductive CacheType where
  | redis
  | sqlite
deriving DecidableEq

/-- Cache configuration: `enabled`, `type`, per-category TTLs
(`config.categories[cat].ttl`) and the global default `config.ttl`,
all in seconds. -/
structure CacheConfig where
  enabled : Bool
  ctype : CacheType
  categoriesTTL : List (String × Nat)
  ttl : Option Nat
deriving DecidableEq

/-- JavaScript `v || d` for an optional numeric config value: absent and
`0` both fall through to the default. -/
def orDefault (v : Option Nat) (d : Nat) : Nat :=
  match v with
  | some x => if x = 0 then d else x
  | none => d

/-- cacheManager.getTTL: explicit per-category TTL, else global `ttl`,
else 3600 seconds. -/
def getTTL (cfg : CacheConfig) (category : String) : Nat :=
  orDefault (cfg.categoriesTTL.lookup category) (orDefault cfg.ttl 3600)

/-- One row of the SQLite `cache` table (minus the key column, which is
the association-list key). -/
structure SqliteRow where
  value : String
  category : String
  expiresAt : Int
  createdAt : Int
deriving DecidableEq

/-- Modelled from the spec: one entry of the remote Redis backend, whose
server enforces the `EX` expiry itself (the `ioredis` client and server
are outside this repository). The entry stores the payload and the
absolute expiry time implied by `SET key value EX ttl`. -/
structure RedisEntry where
  value : String
  expiresAt : Int
deriving DecidableEq

/-- Backend contents; the configured `ctype` selects which side is used. -/
structure BackendState where
  redisStore : List (String × RedisEntry)
  sqliteRows : List (String × SqliteRow)
deriving DecidableEq

/-- Modelled from the spec: `GET` against the remote backend returns the
value only while the server-side expiry has not passed. -/
def redisGet (store : List (String × RedisEntry)) (now : Int) (key : String) : Option String :=
  match store.lookup key with
  | some e => if now < e.expiresAt then some e.value else none
  | none => none

/-- cacheManager.get. `fault = true` models the backend throwing; the
catch block logs and returns `null`. -/
def cacheGet (cfg : CacheConfig) (ready : Bool) (backend : BackendState) (now : Int)
    (fault : Bool) (category : String) (key : Json) : Option String :=
  if ¬ ready ∨ ¬ cfg.enabled then none
  else
    let cacheKey := generateKey category key
    if fault then none
    else
      match cfg.ctype with
      | .redis =>
          match redisGet backend.redisStore now cacheKey with
          | some value => if value = "" then none else some value
          | none => none
      | .sqlite =>
          match backend.sqliteRows.lookup cacheKey with
          | some row => if row.expiresAt < now then none else some row.value
          | none => none

/-- cacheManager.set: resolves the TTL (`customTTL || this.getTTL(category)`),
writes through the configured backend and reports success; a backend
fault is caught and reported as `false` with the store unchanged. -/
def cacheSet (cfg : CacheConfig) (ready : Bool) (backend : BackendState) (now : Int)
    (fault : Bool) (category : String) (key : Json) (value : Json) (customTTL : Option Nat) :
    Bool × BackendState :=
  if ¬ ready ∨ ¬ cfg.enabled then (false, backend)
  else
    let cacheKey := generateKey category key
    let ttl := orDefault customTTL (getTTL cfg category)
    let expiresAt := now + (ttl : Int) * 1000
    if fault then (false, backend)
    else
      match cfg.ctype with
      | .redis =>
          (true, { backend with
            redisStore := setEntry backend.redisStore cacheKey ⟨stringify value, expiresAt⟩ })
      | .sqlite =>
          (true, { backend with
            sqliteRows := setEntry backend.sqliteRows cacheKey
              ⟨stringify value, category, expiresAt, now⟩ })

/-- cacheManager.delete. -/
def cacheDelete (cfg : CacheConfig) (ready : Bool) (backend : BackendState)
    (fault : Bool) (category : String) (key : Json) : Bool × BackendState :=
  if ¬ ready ∨ ¬ cfg.enabled then (false, backend)
  else
    let cacheKey := generateKey category key
    if fault then (false, backend)
    else
      match cfg.ctype with
      | .redis =>
          (true, { backend with
            redisStore := backend.redisStore.filter (fun p => p.1 ≠ cacheKey) })
      | .sqlite =>
          (true, { backend with
            sqliteRows := backend.sqliteRows.filter (fun p => p.1 ≠ cacheKey) })

/-- True when a stored key lies in the `category:*` pattern used by
`clear` on the redis backend. -/
def inCategory (category : String) (storedKey : String) : Bool :=
  (category ++ ":").data.isPrefixOf storedKey.data

/-- cacheManager.clear: deletes every key of the category. -/
def cacheClear (cfg : CacheConfig) (ready : Bool) (backend : BackendState)
    (fault : Bool) (category : String) : Bool × BackendState :=
  if ¬ ready ∨ ¬ cfg.enabled then (false, backend)
  else if fault then (false, backend)
  else
    match cfg.ctype with
    | .redis =>
        (true, { backend with
          redisStore := backend.redisStore.filter (fun p => ¬ inCategory category p.1) })
    | .sqlite =>
        (true, { backend with
          sqliteRows := backend.sqliteRows.filter (fun p => p.2.category ≠ category) })

/-- cacheManager.cleanup: the periodic SQLite sweep deleting rows past
expiry (`DELETE FROM cache WHERE expires_at < ?`). -/
def cleanup (cfg : CacheConfig) (ready : Bool) (backend : BackendState) (now : Int) :
    BackendState :=
  if ¬ ready ∨ ¬ cfg.enabled then backend
  else
    match cfg.ctype with
    | .sqlite => { backend with
        sqliteRows := backend.sqliteRows.filter (fun p => ¬ p.2.expiresAt < now) }
    | .redis => backend

end CacheManager

namespace ApiKeyManager

/-! ## Credential rotator (ApiKeyManager)

Per-provider state as held in `this.keyStates`: the ordered key list,
the rotation cursor, and the three per-key maps. The provider dimension
is factored out: each function acts on one provider's `KeyState`
together with that provider's `retry_delay` configuration value, exactly
as the source methods do after their initial `keyStates.get(provider)`
lookup (an unknown provider, which makes `getKey` throw and the mark
operations return early, is not modelled further). -/

/-- Entry of `state.rateLimits`. -/
structure RateLimitInfo where
  limitedAt : Int
  resetTime : Int
deriving DecidableEq

/-- Entry of `state.errors` (`lastError` holds the message text). -/
structure ErrorInfo where
  count : Nat
  lastError : Option String
  backoffUntil : Int
deriving DecidableEq

/-- One provider's entry of `this.keyStates`. -/
structure KeyState where
  currentKeyIndex : Nat
  keys : List String
  rateLimits : List (String × RateLimitInfo)
  errors : List (String × ErrorInfo)
  lastRotation : List (String × Int)
deriving DecidableEq

/-- `this.config[provider].retry_delay || 1000`. -/
def minRotationInterval (retryDelay : Option Int) : Int :=
  match retryDelay with
  | some d => if d = 0 then 1000 else d
  | none => 1000

/-- apiKeyManager.isKeyLimited: rate-limit window, error backoff window,
or minimum rotation interval. The `lastRotation &&` truthiness test
skips the third check when the stored timestamp is `0`. -/
def isKeyLimited (retryDelay : Option Int) (now : Int) (st : KeyState) (key : String) : Bool :=
  (match st.rateLimits.lookup key with
   | some rl => decide (now < rl.resetTime)
   | none => false) ||
  (match st.errors.lookup key with
   | some e => decide (now < e.backoffUntil)
   | none => false) ||
  (match st.lastRotation.lookup key with
   | some lr => if lr = 0 then false else decide (now - lr < minRotationInterval retryDelay)
   | none => false)

/-- Errors thrown by `getKey`/`rotateKey`. -/
inductive KeyError where
  | noKeysConfigured
  | allKeysUnavailable
deriving DecidableEq

/-- The `while (attempts < state.keys.length)` loop of rotateKey: advance
the cursor circularly and return the first key that is not limited,
recording its rotation time; `none` when the whole cycle is exhausted. -/
def rotateKeyLoop (retryDelay : Option Int) (now : Int) (st : KeyState) :
    Nat → Nat → Option (String × KeyState)
  | 0, _ => none
  | n + 1, idx =>
      let idx2 := (idx + 1) % st.keys.length
      let nextKey := st.keys.getD idx2 ""
      if isKeyLimited retryDelay now st nextKey then rotateKeyLoop retryDelay now st n idx2
      else
        some (nextKey, { st with
          currentKeyIndex := idx2,
          lastRotation := setEntry st.lastRotation nextKey now })

/-- apiKeyManager.rotateKey. -/
def rotateKey (retryDelay : Option Int) (now : Int) (st : KeyState) :
    Except KeyError (String × KeyState) :=
  match rotateKeyLoop retryDelay now st st.keys.length st.currentKeyIndex with
  | some r => .ok r
  | none => .error .allKeysUnavailable

/-- apiKeyManager.getKey: the key at the cursor when it is usable,
otherwise rotate. -/
def getKey (retryDelay : Option Int) (now : Int) (st : KeyState) :
    Except KeyError (String × KeyState) :=
  if st.keys.length = 0 then .error .noKeysConfigured
  else
    let currentKey := st.keys.getD st.currentKeyIndex ""
    if isKeyLimited retryDelay now st currentKey then rotateKey retryDelay now st
    else .ok (currentKey, st)

/-- apiKeyManager.markKeyLimited: record a rate-limit window, defaulting
the reset time to one minute from now (`resetTime || Date.now() + 60000`;
a reset time of `0` also falls through to the default). -/
def markKeyLimited (now : Int) (st : KeyState) (key : String) (resetTime : Option Int) :
    KeyState :=
  let reset :=
    match resetTime with
    | some r => if r = 0 then now + 60000 else r
    | none => now + 60000
  { st with rateLimits := setEntry st.rateLimits key ⟨now, reset⟩ }

/-- apiKeyManager.markKeyError: bump the consecutive-error count and set
the backoff window to `min(count * 5000, 300000)` from now. -/
def markKeyError (now : Int) (st : KeyState) (key : String) (error : String) : KeyState :=
  let current :=
    match st.errors.lookup key with
    | some e => e
    | none => (⟨0, none, 0⟩ : ErrorInfo)
  let count2 := current.count + 1
  { st with errors :=
      setEntry st.errors key ⟨count2, some error, now + (min (count2 * 5000) 300000 : Nat)⟩ }

/-- apiKeyManager.resetKeyState: drop both the rate-limit and error
entries of the key. -/
def resetKeyState (st : KeyState) (key : String) : KeyState :=
  { st with
    rateLimits := st.rateLimits.filter (fun p => p.1 ≠ key),
    errors := st.errors.filter (fun p => p.1 ≠ key) }

/-- The provider state of the design document's rotation example: three
keys, the first rate-limited until 1050000, the second in error backoff
until 1015000, the third untouched; the current time of the example is
1000000. -/
def exampleKeyState : KeyState :=
  ⟨0, [("key0"), ("key1"), ("key2")],
   [(("key0"), ⟨999990, 1050000⟩)],
   [(("key1"), ⟨3, none, 1015000⟩)],
   []⟩

end ApiKeyManager

namespace ProxyManager

/-! ## Proxy rotator (lib/managers/proxyManager.js)

State as held by the manager: the per-type proxy lists, the health map,
the last-used map and the per-consumer assignments. `getProxy` re-enters
itself when no assigned proxy is healthy, so it is modelled with fuel;
`ProxyResult.outOfFuel` at every fuel expresses divergence of the
original recursion. Proxy endpoints are their URL strings and are
assumed non-empty (an empty URL would hit JavaScript string falsiness in
`previousProxy &&` and `|| sortedProxies[0]`). -/

/-- Entry of `this.healthStatus`. -/
structure HealthStatus where
  healthy : Bool
  lastCheck : Option Int
  failCount : Nat
  responseTime : Int
  lastError : Option String
deriving DecidableEq

/-- Health record created for a fresh endpoint. -/
def defaultHealth : HealthStatus := ⟨true, none, 0, 0, none⟩

/-- The status rewrite performed by updateProxyHealth on one endpoint's
record: success restores health and resets the failure count (recording
a non-zero response time when one is given, per `if (responseTime)`);
failure increments the count and keeps the endpoint healthy only while
the count stays below 3. Either way `lastCheck` is stamped. -/
def applyProbe (s : HealthStatus) (healthy : Bool) (responseTime : Option Int) (now : Int) :
    HealthStatus :=
  let s2 :=
    if healthy then
      { s with
        healthy := true,
        failCount := 0,
        responseTime :=
          match responseTime with
          | some r => if r = 0 then s.responseTime else r
          | none => s.responseTime }
    else
      { s with failCount := s.failCount + 1, healthy := decide (s.failCount + 1 < 3) }
  { s2 with lastCheck := some now }

/-- The status rewrite performed by markProxyError on an existing
record: same failure counter and same unhealthy threshold as the probe
path, plus the error text; `lastCheck` is not touched. -/
def applyConsumerError (s : HealthStatus) (error : String) : HealthStatus :=
  { s with
    failCount := s.failCount + 1,
    lastError := some error,
    healthy := decide (s.failCount + 1 < 3) }

/-- Full manager state. -/
structure ProxyState where
  proxies : List (String × List String)
  healthStatus : List (String × HealthStatus)
  lastUsed : List (String × Int)
  providerAssignments : List (String × List String)
deriving DecidableEq

/-- proxyManager.updateProxyHealth (a missing record defaults as in the
source). -/
def updateProxyHealth (st : ProxyState) (proxy : String) (healthy : Bool)
    (responseTime : Option Int) (now : Int) : ProxyState :=
  let status := (st.healthStatus.lookup proxy).getD defaultHealth
  { st with healthStatus :=
      setEntry st.healthStatus proxy (applyProbe status healthy responseTime now) }

/-- proxyManager.markProxyError (no-op on an endpoint with no health
record). -/
def markProxyError (st : ProxyState) (proxy : String) (error : String) : ProxyState :=
  match st.healthStatus.lookup proxy with
  | none => st
  | some status =>
      { st with healthStatus :=
          setEntry st.healthStatus proxy (applyConsumerError status error) }

/-- `Array.from(this.proxies.values()).flat()`. -/
def allProxies (st : ProxyState) : List String := (st.proxies.map Prod.snd).flatten

/-- proxyManager.assignProxiesToProvider: assign the full inventory. -/
def assignProxiesToProvider (st : ProxyState) (consumer : String) :
    List String × ProxyState :=
  let all := allProxies st
  (all, { st with providerAssignments := setEntry st.providerAssignments consumer all })

/-- The healthy filter of getProxy:
`proxies.filter(p => this.healthStatus.get(p)?.healthy)`. -/
def healthyFor (st : ProxyState) (l : List String) : List String :=
  l.filter (fun p =>
    match st.healthStatus.lookup p with
    | some s => s.healthy
    | none => false)

/-- `this.lastUsed.get(p) || 0`. -/
def lastUsedOf (st : ProxyState) (p : String) : Int := (st.lastUsed.lookup p).getD 0

/-- The least-recently-used sort of getProxy
(`sort((a, b) => lastUsed(a) - lastUsed(b))`, a stable ascending sort,
modelled by stable insertion sort). -/
def sortByLastUsed (st : ProxyState) (l : List String) : List String :=
  l.insertionSort (fun a b => lastUsedOf st a ≤ lastUsedOf st b)

/-- The selection step of getProxy over the sorted healthy candidates:
`previousProxy && sortedProxies.length > 1
  ? sortedProxies.find(p => p !== previousProxy) || sortedProxies[0]
  : sortedProxies[0]`. -/
def selectProxy (sorted : List String) (previousProxy : Option String) : String :=
  match previousProxy with
  | some prev =>
      if 1 < sorted.length then
        (sorted.find? (fun p => p ≠ prev)).getD (sorted.getD 0 "")
      else sorted.getD 0 ""
  | none => sorted.getD 0 ""

/-- Result of a getProxy call. -/
inductive ProxyResult where
  | outOfFuel
  | disabled
  | selected (proxy : String) (st : ProxyState)
deriving DecidableEq

/-- proxyManager.getProxy: `null` when rotation is disabled; lazily
assign the full inventory to a new consumer; filter to healthy
endpoints; when none are healthy, delete the consumer's assignment and
re-enter (the source passes no `previousProxy` on that re-entry);
otherwise pick by least-recently-used, avoiding `previousProxy` when
more than one candidate is in the sorted list, and stamp the winner's
last-used time. -/
def getProxy (enabled : Bool) :
    Nat → ProxyState → String → Option String → Int → ProxyResult
  | 0, _, _, _, _ => .outOfFuel
  | fuel + 1, st, consumer, previousProxy, now =>
      if enabled = false then .disabled
      else
        let asn :=
          match st.providerAssignments.lookup consumer with
          | some l => (l, st)
          | none => assignProxiesToProvider st consumer
        let st1 := asn.2
        let healthyProxies := healthyFor st1 asn.1
        if healthyProxies.isEmpty then
          getProxy enabled fuel
            { st1 with providerAssignments :=
                st1.providerAssignments.filter (fun p => p.1 ≠ consumer) }
            consumer none now
        else
          let sortedProxies := sortByLastUsed st1 healthyProxies
          let selectedProxy := selectProxy sortedProxies previousProxy
          .selected selectedProxy
            { st1 with lastUsed := setEntry st1.lastUsed selectedProxy now }

/-- The proxy of a `selected` result, if any. -/
def selectedOf : ProxyResult → Option String
  | .selected p _ => some p
  | _ => none

/-- Per-endpoint health states reachable from the initial record through
probe results (the health-check loop) and consumer-reported errors. -/
inductive ReachableHealth : HealthStatus → Prop where
  | init : ReachableHealth defaultHealth
  | probe (s : HealthStatus) (healthy : Bool) (responseTime : Option Int) (now : Int) :
      ReachableHealth s → ReachableHealth (applyProbe s healthy responseTime now)
  | consumerError (s : HealthStatus) (error : String) :
      ReachableHealth s → ReachableHealth (applyConsumerError s error)

/-- A pool with a single endpoint that has failed three probes. -/
def downHealth : HealthStatus := ⟨false, some 0, 3, 0, none⟩

/-- Manager state in which no endpoint of the pool is healthy. -/
def noHealthyState : ProxyState :=
  ⟨[(("http"), [("proxyA")])], [(("proxyA"), downHealth)], [], []⟩

/-- Manager state with two healthy endpoints assigned to consumer `c`,
`proxyA` used least recently. -/
def twoHealthyState : ProxyState :=
  ⟨[(("http"), [("proxyA"), ("proxyB")])],
   [(("proxyA"), defaultHealth), (("proxyB"), defaultHealth)],
   [(("proxyA"), 10), (("proxyB"), 20)],
   [(("c"), [("proxyA"), ("proxyB")])]⟩

end ProxyManager

namespace TaskScheduler

/-! ## Scheduler (lib/scheduler.js)

The retry pipeline of one submitted task. `executeTask` builds the
queued task by object spread — `{ ...task, id: taskId, attempts: 0,
startTime: Date.now() }` — whose later `attempts: 0` entry overwrites
whatever attempt count the incoming task object carried, and hands it to
`runTask`. On handler failure `runTask` either defers to `retryTask`
(when `attempts < max_attempts`) or emits one `taskFailed` event and
rethrows. `retryTask` waits out the backoff delay and resubmits
`{ ...task, attempts: task.attempts + 1 }` through `executeTask` again.

The handler is modelled by a predicate on the invocation index (how many
times `handler.execute` has been called for this submission), covering
both always-failing and eventually-succeeding handlers. The queue only
sequences execution and is not modelled; fuel bounds the number of
handler invocations, and `outOfFuel` at every fuel expresses an
execution that never reaches a terminal outcome. -/

/-- The task fields the retry pipeline reads. -/
structure Task where
  category : String
  attempts : Nat
deriving DecidableEq

/-- Terminal observations of one submission: the handler succeeded on
invocation `inv` (one `taskComplete` event), or one `taskFailed` event
was emitted with the task's attempt count attached, or the fuel ran out
with the task still being retried. -/
inductive RunResult where
  | completed (inv : Nat)
  | failed (attempts : Nat)
  | outOfFuel
deriving DecidableEq

/-- The queued-task construction of executeTask:
`{ ...task, id: taskId, attempts: 0, startTime: Date.now() }` — the
spread entries are then overwritten, so the queued copy always starts
with `attempts: 0`. -/
def mkQueuedTask (t : Task) : Task := { t with attempts := 0 }

/-- scheduler.runTask, with retryTask and the re-entry into executeTask
inlined: invoke the handler; on failure either resubmit (through
`mkQueuedTask`, as `executeTask` does) with the attempt count the retry
intended, or emit the failure. -/
def runTask (maxAttempts : Nat) (handlerOk : Nat → Bool) :
    Nat → Nat → Task → RunResult
  | 0, _, _ => .outOfFuel
  | fuel + 1, inv, t =>
      if handlerOk inv then .completed inv
      else if t.attempts < maxAttempts then
        runTask maxAttempts handlerOk fuel (inv + 1) (mkQueuedTask { t with attempts := t.attempts + 1 })
      else .failed t.attempts

/-- scheduler.executeTask for an immediate task: queue the rebuilt task
and run it. -/
def executeTask (maxAttempts : Nat) (handlerOk : Nat → Bool) (fuel : Nat) (t : Task) :
    RunResult :=
  runTask maxAttempts handlerOk fuel 0 (mkQueuedTask t)

/-- scheduler.calculateRetryDelay over exact rationals: exponential
delay capped at 5 minutes, then `exponentialDelay * 0.2 * (rand - 0.5)`
jitter, floored. `rand` is the `Math.random()` draw, so `0 ≤ rand < 1`.
The `config.retry.delay || 5000` default treats `0` as absent. -/
def calculateRetryDelay (configDelay : Option ℚ) (attempts : Nat) (rand : ℚ) : ℤ :=
  let baseDelay : ℚ :=
    match configDelay with
    | some d => if d = 0 then 5000 else d
    | none => 5000
  let maxDelay : ℚ := 300000
  let exponentialDelay := min (baseDelay * 2 ^ attempts) maxDelay
  let jitter := exponentialDelay * (2 / 10) * (rand - 1 / 2)
  ⌊exponentialDelay + jitter⌋

end TaskScheduler

/-! ## Theorems -/

namespace TaskScheduler

/-- With an always-failing handler, a queued task whose attempt count is
`0` is retried forever: the resubmission goes back through
`executeTask`, whose object spread resets `attempts` to `0`, so the
`attempts < max_attempts` guard never fails. -/
theorem runTask_alwaysFail_no_terminal (maxAttempts : Nat) (hpos : 0 < maxAttempts) :
    ∀ (fuel inv : Nat) (t : Task), t.attempts = 0 →
      runTask maxAttempts (fun _ => false) fuel inv t = .outOfFuel := by
  intro fuel
  induction fuel with
  | zero => intro inv t _; rfl
  | succ n ih =>
      intro inv t ht
      have hlt : t.attempts < maxAttempts := by omega
      simp only [runTask, if_pos hlt]
      exact ih (inv + 1) _ rfl

/-- C1: the claim says a task whose handler fails on every attempt is
retried only while its attempt count stays below the configured maximum,
the resubmitted copy carrying an incremented attempt count, and that
exhausting the attempts yields exactly one failure event. The code
violates this: `executeTask` rebuilds the queued task with
`attempts: 0` after the spread, erasing the increment `retryTask` made,
so for every fuel bound the execution is still retrying — it never
reaches the `taskFailed` branch and never surfaces the error. -/
theorem executeTask_alwaysFailing_never_fails_out (maxAttempts : Nat)
    (hpos : 0 < maxAttempts) :
    ∀ (fuel : Nat) (t : Task),
      executeTask maxAttempts (fun _ => false) fuel t = .outOfFuel := by
  intro fuel t
  exact runTask_alwaysFail_no_terminal maxAttempts hpos fuel 0 (mkQueuedTask t) rfl

/-- Witness for the C1 theorem at `max_attempts = 3` and a concrete
task that already claims five attempts. -/
theorem executeTask_alwaysFailing_never_fails_out_witness :
    0 < 3 ∧ executeTask 3 (fun _ => false) 10 ⟨("scrape"), 5⟩ = .outOfFuel :=
  ⟨by decide, executeTask_alwaysFailing_never_fails_out 3 (by decide) 10 ⟨("scrape"), 5⟩⟩

/-- C3: the claim says the retry delay equals the capped exponential
delay jittered by plus or minus twenty percent, and is therefore bounded
by `max_delay`. The code adds the jitter after the cap and its jitter
term `0.2 * (rand - 0.5)` only spans plus or minus ten percent: at
attempt 6 with the default base delay the capped delay is 300000 and a
draw of 0.9 yields 324000 ms, exceeding `max_delay`; at attempt 0 the
delay ranges over [4500, 5500), never reaching the 4000 or 6000 edges a
twenty-percent jitter would produce. -/
theorem calculateRetryDelay_exceeds_cap :
    calculateRetryDelay (some 5000) 6 (9 / 10) = 324000 ∧
    (300000 : ℤ) < 324000 ∧
    calculateRetryDelay (some 5000) 0 0 = 4500 ∧
    calculateRetryDelay (some 5000) 0 (99 / 100) = 5490 := by
  refine ⟨?_, by norm_num, ?_, ?_⟩ <;>
    · simp only [calculateRetryDelay]
      norm_num [min_def]

end TaskScheduler

namespace ProxyManager

/-- C2: the claim says that when a consumer's assignment has no healthy
proxy, `getProxy` clears the assignment and retries exactly once against
the full pool, terminating on every input and surfacing a failure when
the full pool is also unhealthy. The code instead re-enters itself
unconditionally: each re-entry re-assigns the full pool, finds no
healthy endpoint, deletes the assignment and recurses again, so on a
pool with no healthy proxy the call never returns — for every fuel bound
the model is still recursing, and no error is ever surfaced. -/
theorem getProxy_no_healthy_pool_diverges :
    ∀ fuel : Nat,
      getProxy true fuel noHealthyState ("consumer") none 0 = .outOfFuel := by
  intro fuel
  induction fuel with
  | zero => rfl
  | succ n ih =>
      have hstep : getProxy true (n + 1) noHealthyState ("consumer") none 0 =
          getProxy true n noHealthyState ("consumer") none 0 := rfl
      rw [hstep]
      exact ih

end ProxyManager

namespace ApiKeyManager

/-- When every candidate strictly after the cursor position (in circular
order, up to `n` steps) is limited, the rotation loop exhausts and
returns `none`. -/
theorem rotateKeyLoop_eq_none (retryDelay : Option Int) (now : Int) (st : KeyState) :
    ∀ (n idx : Nat),
      (∀ j, 1 ≤ j → j ≤ n →
        isKeyLimited retryDelay now st
          (st.keys.getD ((idx + j) % st.keys.length) "") = true) →
      rotateKeyLoop retryDelay now st n idx = none := by
  intro n
  induction n with
  | zero => intro idx _; rfl
  | succ n ih =>
      intro idx h
      have h1 : isKeyLimited retryDelay now st
          (st.keys.getD ((idx + 1) % st.keys.length) "") = true :=
        h 1 (by omega) (by omega)
      simp only [rotateKeyLoop, h1, if_true]
      apply ih
      intro j hj1 hjn
      have hmod : ((idx + 1) % st.keys.length + j) % st.keys.length =
          (idx + (j + 1)) % st.keys.length := by
        rw [Nat.mod_add_mod]; congr 1; omega
      rw [hmod]
      exact h (j + 1) (by omega) (by omega)

/-- When the candidate `j` steps after the cursor position is the first
usable one, the rotation loop returns it together with the state update
rotateKey performs (cursor moved there, rotation time stamped). -/
theorem rotateKeyLoop_eq_some (retryDelay : Option Int) (now : Int) (st : KeyState) :
    ∀ (n idx j : Nat), 1 ≤ j → j ≤ n →
      isKeyLimited retryDelay now st
        (st.keys.getD ((idx + j) % st.keys.length) "") = false →
      (∀ i, 1 ≤ i → i < j →
        isKeyLimited retryDelay now st
          (st.keys.getD ((idx + i) % st.keys.length) "") = true) →
      rotateKeyLoop retryDelay now st n idx =
        some (st.keys.getD ((idx + j) % st.keys.length) "",
          { st with
            currentKeyIndex := (idx + j) % st.keys.length,
            lastRotation :=
              setEntry st.lastRotation
                (st.keys.getD ((idx + j) % st.keys.length) "") now }) := by
  intro n
  induction n with
  | zero => intro idx j hj1 hjn _ _; omega
  | succ n ih =>
      intro idx j hj1 hjn husable hmin
      by_cases hj : j = 1
      · subst hj
        simp only [rotateKeyLoop]
        rw [husable]
        simp
      · have h1 : isKeyLimited retryDelay now st
            (st.keys.getD ((idx + 1) % st.keys.length) "") = true :=
          hmin 1 (by omega) (by omega)
        simp only [rotateKeyLoop, h1, if_true]
        have hmod : ∀ i : Nat, ((idx + 1) % st.keys.length + i) % st.keys.length =
            (idx + (i + 1)) % st.keys.length := by
          intro i; rw [Nat.mod_add_mod]; congr 1; omega
        have husable2 := husable
        rw [show idx + j = idx + ((j - 1) + 1) by omega] at husable2
        rw [← hmod (j - 1)] at husable2
        have hres := ih ((idx + 1) % st.keys.length) (j - 1) (by omega) (by omega) husable2 ?_
        · rw [hres]
          rw [hmod (j - 1), show idx + (j - 1 + 1) = idx + j by omega]
        · intro i hi1 hij
          rw [hmod i, show idx + (i + 1) = idx + (i + 1) from rfl]
          exact hmin (i + 1) (by omega) (by omega)

/-- C4: for a provider with a non-empty key list, `getKey` returns the
key at the cursor when it is not limited; when it is limited, the
rotation advances the cursor circularly and returns the first candidate
(at circular offset `j`, with every earlier offset limited, each of the
`keys.length` candidates examined at most once) that is not limited,
updating the cursor and rotation stamp; and when all `keys.length`
candidates of the full cycle are limited it fails with
`AllCredentialsUnavailable`. -/
theorem getKey_spec (retryDelay : Option Int) (now : Int) (st : KeyState)
    (hne : 0 < st.keys.length) :
    (isKeyLimited retryDelay now st (st.keys.getD st.currentKeyIndex "") = false →
      getKey retryDelay now st = .ok (st.keys.getD st.currentKeyIndex "", st)) ∧
    (isKeyLimited retryDelay now st (st.keys.getD st.currentKeyIndex "") = true →
      ∀ j, 1 ≤ j → j ≤ st.keys.length →
        isKeyLimited retryDelay now st
          (st.keys.getD ((st.currentKeyIndex + j) % st.keys.length) "") = false →
        (∀ i, 1 ≤ i → i < j →
          isKeyLimited retryDelay now st
            (st.keys.getD ((st.currentKeyIndex + i) % st.keys.length) "") = true) →
        getKey retryDelay now st =
          .ok (st.keys.getD ((st.currentKeyIndex + j) % st.keys.length) "",
            { st with
              currentKeyIndex := (st.currentKeyIndex + j) % st.keys.length,
              lastRotation :=
                setEntry st.lastRotation
                  (st.keys.getD ((st.currentKeyIndex + j) % st.keys.length) "") now })) ∧
    (isKeyLimited retryDelay now st (st.keys.getD st.currentKeyIndex "") = true →
      (∀ j, 1 ≤ j → j ≤ st.keys.length →
        isKeyLimited retryDelay now st
          (st.keys.getD ((st.currentKeyIndex + j) % st.keys.length) "") = true) →
      getKey retryDelay now st = .error .allKeysUnavailable) := by
  have hlen : st.keys.length ≠ 0 := by omega
  refine ⟨?_, ?_, ?_⟩
  · intro hcur
    simp only [getKey]
    rw [if_neg hlen, hcur]
    simp
  · intro hcur j hj1 hjlen husable hmin
    have hloop := rotateKeyLoop_eq_some retryDelay now st st.keys.length
      st.currentKeyIndex j hj1 hjlen husable hmin
    simp only [getKey]
    rw [if_neg hlen, hcur]
    simp [rotateKey, hloop]
  · intro hcur hall
    have hloop := rotateKeyLoop_eq_none retryDelay now st st.keys.length
      st.currentKeyIndex (fun j h1 h2 => hall j h1 h2)
    simp only [getKey]
    rw [if_neg hlen, hcur]
    simp [rotateKey, hloop]

/-- Witness for the C4 theorem on the design document's example: key 0
rate-limited, key 1 in error backoff, so `getKey` rotates to key 2 and
stamps its rotation time. -/
theorem getKey_spec_witness :
    getKey none 1000000 exampleKeyState =
      .ok (("key2"),
        { exampleKeyState with
          currentKeyIndex := 2,
          lastRotation := [(("key2"), 1000000)] }) := by
  have h := (getKey_spec none 1000000 exampleKeyState (by decide)).2.1
    (by decide) 2 (by decide) (by decide) (by decide) ?_
  · exact h
  · intro i h1 h2
    have : i = 1 := by omega
    subst this
    decide

end ApiKeyManager

namespace ProxyManager

/-- The first element `getProxy` reads from a non-empty candidate list
is a member of it. -/
theorem getD_zero_mem (l : List String) (h : l ≠ []) : l.getD 0 "" ∈ l := by
  cases l with
  | nil => exact absurd rfl h
  | cons a t => simp [List.getD]

/-- The endpoint chosen by the selection step is one of the sorted
candidates. -/
theorem selectProxy_mem (sorted : List String) (prev : Option String) (h : sorted ≠ []) :
    selectProxy sorted prev ∈ sorted := by
  cases prev with
  | none => exact getD_zero_mem sorted h
  | some pv =>
      simp only [selectProxy]
      by_cases hlen : 1 < sorted.length
      · rw [if_pos hlen]
        cases hf : sorted.find? (fun p => p ≠ pv) with
        | none => simpa using getD_zero_mem sorted h
        | some q => simpa using List.mem_of_find?_eq_some hf
      · rw [if_neg hlen]
        exact getD_zero_mem sorted h

/-- Members of the healthy filter have a health record whose flag is
set. -/
theorem mem_healthyFor (st : ProxyState) (l : List String) (p : String)
    (h : p ∈ healthyFor st l) :
    ∃ s, st.healthStatus.lookup p = some s ∧ s.healthy = true := by
  have h2 := (List.mem_filter.mp h).2
  cases hl : st.healthStatus.lookup p with
  | none => rw [hl] at h2; cases h2
  | some s => rw [hl] at h2; exact ⟨s, rfl, h2⟩

/-- Sorting by last-used time does not change membership. -/
theorem mem_sortByLastUsed (st : ProxyState) (l : List String) (p : String) :
    p ∈ sortByLastUsed st l ↔ p ∈ l :=
  (List.perm_insertionSort (fun a b => lastUsedOf st a ≤ lastUsedOf st b) l).mem_iff

/-- Sorting by last-used time does not change length. -/
theorem length_sortByLastUsed (st : ProxyState) (l : List String) :
    (sortByLastUsed st l).length = l.length :=
  (List.perm_insertionSort (fun a b => lastUsedOf st a ≤ lastUsedOf st b) l).length_eq

/-- A non-empty candidate list stays non-empty after the sort. -/
theorem sortByLastUsed_ne_nil (st : ProxyState) (l : List String) (h : l ≠ []) :
    sortByLastUsed st l ≠ [] := by
  intro hnil
  have hlen := length_sortByLastUsed st l
  rw [hnil] at hlen
  exact h (List.length_eq_zero.mp hlen.symm)

/-- Any proxy a `selected` result carries was looked up healthy in the
health map of the state the call started from (the re-entry on an
unhealthy assignment never changes the health map). -/
theorem getProxy_selected_healthy :
    ∀ (fuel : Nat) (enabled : Bool) (st : ProxyState) (consumer : String)
      (prev : Option String) (now : Int) (p : String) (st2 : ProxyState),
      getProxy enabled fuel st consumer prev now = .selected p st2 →
      ∃ s, st.healthStatus.lookup p = some s ∧ s.healthy = true := by
  intro fuel
  induction fuel with
  | zero => intro enabled st consumer prev now p st2 h; cases h
  | succ n ih =>
      intro enabled st consumer prev now p st2 h
      simp only [getProxy] at h
      by_cases he : enabled = false
      · rw [if_pos he] at h; cases h
      · rw [if_neg he] at h
        cases hasn : st.providerAssignments.lookup consumer with
        | some assigned =>
            rw [hasn] at h
            simp only at h
            by_cases hemp : (healthyFor st assigned).isEmpty
            · rw [if_pos hemp] at h
              have hres := ih enabled _ consumer none now p st2 h
              exact hres
            · rw [if_neg hemp] at h
              have hsel : selectProxy (sortByLastUsed st (healthyFor st assigned)) prev = p := by
                cases h; rfl
              have hne : healthyFor st assigned ≠ [] := by
                intro hnil
                exact hemp (List.isEmpty_iff.mpr hnil)
              have hmem := selectProxy_mem _ prev (sortByLastUsed_ne_nil st _ hne)
              rw [hsel, mem_sortByLastUsed] at hmem
              exact mem_healthyFor st assigned p hmem
        | none =>
            rw [hasn] at h
            simp only [assignProxiesToProvider] at h
            set stA : ProxyState :=
              { st with providerAssignments :=
                  setEntry st.providerAssignments consumer (allProxies st) } with hstA
            by_cases hemp : (healthyFor stA (allProxies st)).isEmpty
            · rw [if_pos hemp] at h
              have hres := ih enabled _ consumer none now p st2 h
              exact hres
            · rw [if_neg hemp] at h
              have hsel : selectProxy (sortByLastUsed stA (healthyFor stA (allProxies st)))
                  prev = p := by
                cases h; rfl
              have hne2 : healthyFor stA (allProxies st) ≠ [] := fun hnil =>
                hemp (List.isEmpty_iff.mpr hnil)
              have hmem := selectProxy_mem (sortByLastUsed stA (healthyFor stA (allProxies st)))
                prev (sortByLastUsed_ne_nil stA (healthyFor stA (allProxies st)) hne2)
              rw [hsel, mem_sortByLastUsed] at hmem
              exact mem_healthyFor stA (allProxies st) p hmem

end ProxyManager

namespace ProxyManager

/-- Reachable per-endpoint health records carry the unhealthy flag
exactly when the consecutive-failure count has reached 3. -/
theorem reachableHealth_invariant :
    ∀ s, ReachableHealth s → (s.healthy = false ↔ 3 ≤ s.failCount) := by
  intro s h
  induction h with
  | init => simp [defaultHealth]
  | probe s healthy responseTime now _ _ =>
      cases healthy with
      | true => simp [applyProbe]
      | false =>
          simp only [applyProbe, Bool.false_eq_true, if_false, decide_eq_false_iff_not]
          constructor <;> omega
  | consumerError s error _ _ =>
      simp only [applyConsumerError, decide_eq_false_iff_not]
      constructor <;> omega

/-- C5: at every reachable per-endpoint health state the endpoint is
flagged unhealthy exactly when its consecutive-failure count has reached
3; a successful probe restores the flag and resets the count to zero;
the probe-failure path and the consumer-reported markProxyError path
increment the same counter; and a `selected` result of getProxy always
names an endpoint whose health flag was true in the health map. -/
theorem proxy_health_invariant :
    (∀ s, ReachableHealth s → (s.healthy = false ↔ 3 ≤ s.failCount)) ∧
    (∀ (s : HealthStatus) (responseTime : Option Int) (now : Int),
      (applyProbe s true responseTime now).healthy = true ∧
      (applyProbe s true responseTime now).failCount = 0) ∧
    (∀ (s : HealthStatus) (responseTime : Option Int) (now : Int) (error : String),
      (applyProbe s false responseTime now).failCount = s.failCount + 1 ∧
      (applyConsumerError s error).failCount = s.failCount + 1) ∧
    (∀ (enabled : Bool) (fuel : Nat) (st : ProxyState) (consumer : String)
      (prev : Option String) (now : Int) (p : String) (st2 : ProxyState),
      getProxy enabled fuel st consumer prev now = .selected p st2 →
      ∃ s, st.healthStatus.lookup p = some s ∧ s.healthy = true) := by
  refine ⟨reachableHealth_invariant, ?_, ?_, ?_⟩
  · intro s responseTime now
    constructor <;> simp [applyProbe]
  · intro s responseTime now error
    constructor <;> simp [applyProbe, applyConsumerError]
  · intro enabled fuel st consumer prev now p st2 h
    exact getProxy_selected_healthy fuel enabled st consumer prev now p st2 h

/-- Witness for the C5 theorem: two probe failures followed by a
consumer-reported error reach failure count 3 and the invariant reports
the endpoint unhealthy; and a concrete selection from a healthy pool
returns an endpoint whose stored flag is true. -/
theorem proxy_health_invariant_witness :
    ((applyConsumerError (applyProbe (applyProbe defaultHealth false none 1) false none 2)
        ("boom")).healthy = false ↔
      3 ≤ (applyConsumerError (applyProbe (applyProbe defaultHealth false none 1) false none 2)
        ("boom")).failCount) ∧
    (∃ s, twoHealthyState.healthStatus.lookup ("proxyA") = some s ∧ s.healthy = true) := by
  constructor
  · exact proxy_health_invariant.1 _
      (ReachableHealth.consumerError _ _
        (ReachableHealth.probe _ _ _ _ (ReachableHealth.probe _ _ _ _ ReachableHealth.init)))
  · have heq : getProxy true 1 twoHealthyState ("c") none 99 =
        .selected ("proxyA")
          { twoHealthyState with lastUsed := [(("proxyA"), 99), (("proxyB"), 20)] } := by
      rfl
    exact proxy_health_invariant.2.2.2 true 1 twoHealthyState ("c") none 99 ("proxyA") _ heq

end ProxyManager

namespace ProxyManager

/-- One getProxy step when the consumer has an assignment with at least
one healthy endpoint: the selection branch runs and stamps the winner. -/
theorem getProxy_assigned_selects (fuel : Nat) (st : ProxyState) (consumer : String)
    (prev : Option String) (now : Int) (assigned : List String)
    (hasn : st.providerAssignments.lookup consumer = some assigned)
    (hne : healthyFor st assigned ≠ []) :
    getProxy true (fuel + 1) st consumer prev now =
      .selected (selectProxy (sortByLastUsed st (healthyFor st assigned)) prev)
        { st with lastUsed := setEntry st.lastUsed (selectProxy (sortByLastUsed st (healthyFor st assigned)) prev) now } := by
  have hemp : (healthyFor st assigned).isEmpty = false := List.isEmpty_eq_false.mpr hne
  simp only [getProxy, hasn]
  rw [hemp]
  simp

/-- The head of the last-used sort minimizes the last-used time over the
candidates. -/
theorem sortByLastUsed_head_min (st : ProxyState) (l : List String) :
    ∀ q ∈ l, lastUsedOf st ((sortByLastUsed st l).getD 0 "") ≤ lastUsedOf st q := by
  intro q hq
  haveI : IsTotal String (fun a b => lastUsedOf st a ≤ lastUsedOf st b) :=
    ⟨fun a b => le_total _ _⟩
  haveI : IsTrans String (fun a b => lastUsedOf st a ≤ lastUsedOf st b) :=
    ⟨fun a b c hab hbc => le_trans hab hbc⟩
  have hsorted : List.Sorted (fun a b => lastUsedOf st a ≤ lastUsedOf st b)
      (sortByLastUsed st l) := List.sorted_insertionSort _ l
  have hq2 : q ∈ sortByLastUsed st l := (mem_sortByLastUsed st l q).mpr hq
  cases hs : sortByLastUsed st l with
  | nil => rw [hs] at hq2; cases hq2
  | cons a t =>
      rw [hs] at hq2 hsorted
      rw [List.getD_cons_zero]
      rcases List.mem_cons.mp hq2 with rfl | hq3
      · exact le_refl _
      · exact List.rel_of_sorted_cons hsorted q hq3

/-- When some candidate differs from the previous proxy, the selection
avoids the previous proxy. -/
theorem selectProxy_ne_prev (sorted : List String) (prev : String) (h : sorted ≠ [])
    (hq : ∃ q ∈ sorted, q ≠ prev) : selectProxy sorted (some prev) ≠ prev := by
  simp only [selectProxy]
  by_cases hlen : 1 < sorted.length
  · rw [if_pos hlen]
    have hsome : (sorted.find? (fun p => p ≠ prev)).isSome := by
      rw [List.find?_isSome]
      obtain ⟨q, hqm, hqne⟩ := hq
      exact ⟨q, hqm, by simpa using hqne⟩
    obtain ⟨r, hr⟩ := Option.isSome_iff_exists.mp hsome
    rw [hr, Option.getD_some]
    simpa using List.find?_some hr
  · rw [if_neg hlen]
    obtain ⟨q, hqm, hqne⟩ := hq
    cases sorted with
    | nil => exact absurd rfl h
    | cons a t =>
        cases t with
        | nil =>
            rw [List.getD_cons_zero]
            rcases List.mem_cons.mp hqm with rfl | hq3
            · exact hqne
            · cases hq3
        | cons b t2 => simp at hlen

/-- When the previous proxy is the only candidate value, the selection
falls back to it. -/
theorem selectProxy_all_prev (sorted : List String) (prev : String) (h : sorted ≠ [])
    (hall : ∀ q ∈ sorted, q = prev) : selectProxy sorted (some prev) = prev := by
  simp only [selectProxy]
  by_cases hlen : 1 < sorted.length
  · rw [if_pos hlen]
    have hf : sorted.find? (fun p => p ≠ prev) = none := by
      rw [List.find?_eq_none]
      intro x hx
      simpa using hall x hx
    rw [hf, Option.getD_none]
    exact hall _ (getD_zero_mem sorted h)
  · rw [if_neg hlen]
    exact hall _ (getD_zero_mem sorted h)

/-- C9: with an assignment whose healthy candidates are non-empty,
getProxy picks the least-recently-used healthy candidate when no
previous proxy is given; when a previous proxy is given and a different
healthy candidate exists it returns one different from the previous
proxy; and when every healthy candidate equals the previous proxy it
falls back to returning that proxy rather than failing. -/
theorem getProxy_selection_spec (fuel : Nat) (st : ProxyState) (consumer : String)
    (now : Int) (assigned : List String)
    (hasn : st.providerAssignments.lookup consumer = some assigned)
    (hne : healthyFor st assigned ≠ []) :
    (∃ p st2, getProxy true (fuel + 1) st consumer none now = .selected p st2 ∧
      p ∈ healthyFor st assigned ∧
      ∀ q ∈ healthyFor st assigned, lastUsedOf st p ≤ lastUsedOf st q) ∧
    (∀ prev : String, (∃ q ∈ healthyFor st assigned, q ≠ prev) →
      ∃ p st2, getProxy true (fuel + 1) st consumer (some prev) now = .selected p st2 ∧
        p ∈ healthyFor st assigned ∧ p ≠ prev) ∧
    (∀ prev : String, (∀ q ∈ healthyFor st assigned, q = prev) →
      ∃ st2, getProxy true (fuel + 1) st consumer (some prev) now = .selected prev st2) := by
  have hsne := sortByLastUsed_ne_nil st (healthyFor st assigned) hne
  refine ⟨?_, ?_, ?_⟩
  · refine ⟨_, _, getProxy_assigned_selects fuel st consumer none now assigned hasn hne,
      ?_, ?_⟩
    · have := selectProxy_mem (sortByLastUsed st (healthyFor st assigned)) none hsne
      rwa [mem_sortByLastUsed] at this
    · intro q hq
      exact sortByLastUsed_head_min st (healthyFor st assigned) q hq
  · intro prev hq
    refine ⟨_, _, getProxy_assigned_selects fuel st consumer (some prev) now assigned hasn hne,
      ?_, ?_⟩
    · have := selectProxy_mem (sortByLastUsed st (healthyFor st assigned)) (some prev) hsne
      rwa [mem_sortByLastUsed] at this
    · apply selectProxy_ne_prev _ prev hsne
      obtain ⟨q, hqm, hqne⟩ := hq
      exact ⟨q, (mem_sortByLastUsed st _ q).mpr hqm, hqne⟩
  · intro prev hall
    have hsel : selectProxy (sortByLastUsed st (healthyFor st assigned)) (some prev) = prev := by
      apply selectProxy_all_prev _ prev hsne
      intro q hqm
      exact hall q ((mem_sortByLastUsed st _ q).mp hqm)
    have hstep := getProxy_assigned_selects fuel st consumer (some prev) now assigned hasn hne
    rw [hsel] at hstep
    exact ⟨_, hstep⟩

/-- Witness for the C9 theorem: with `proxyA` as the previous proxy and
`proxyB` also healthy, the selection returns an endpoint different from
`proxyA`. -/
theorem getProxy_selection_spec_witness :
    ∃ p st2, getProxy true 1 twoHealthyState ("c") (some ("proxyA")) 99 = .selected p st2 ∧
      p ∈ healthyFor twoHealthyState [("proxyA"), ("proxyB")] ∧ p ≠ ("proxyA") :=
  (getProxy_selection_spec 0 twoHealthyState ("c") 99 [("proxyA"), ("proxyB")]
    (by decide) (by decide)).2.1 ("proxyA") ⟨("proxyB"), by decide, by decide⟩

end ProxyManager

/-- Looking up the key just written by `setEntry` yields the new value. -/
theorem lookup_setEntry_self {α : Type} (l : List (String × α)) (k : String) (v : α) :
    (setEntry l k v).lookup k = some v := by
  simp [setEntry, List.lookup]

namespace ApiKeyManager

/-- C7: markKeyError stores, for the marked credential, an error record
whose count is the previous consecutive-error count plus one and whose
backoff-until time is now plus `min(count * 5000, 300000)` milliseconds;
markKeyLimited without a reset time stores a rate-limit record resetting
sixty seconds from now, and throughout that window the credential is
reported limited. -/
theorem markError_and_rateLimit_spec (now : Int) (st : KeyState) (key : String)
    (error : String) :
    ((markKeyError now st key error).errors.lookup key =
      some ⟨(match st.errors.lookup key with | some e => e.count | none => 0) + 1,
        some error,
        now + ((min (((match st.errors.lookup key with | some e => e.count | none => 0) + 1) * 5000) 300000 : Nat) : Int)⟩) ∧
    ((markKeyLimited now st key none).rateLimits.lookup key = some ⟨now, now + 60000⟩) ∧
    (∀ (retryDelay : Option Int) (t : Int), now ≤ t → t < now + 60000 →
      isKeyLimited retryDelay t (markKeyLimited now st key none) key = true) := by
  refine ⟨?_, ?_, ?_⟩
  · cases he : st.errors.lookup key with
    | none => simp [markKeyError, he, lookup_setEntry_self]
    | some e => simp [markKeyError, he, lookup_setEntry_self]
  · simp [markKeyLimited, lookup_setEntry_self]
  · intro retryDelay t hle hlt
    simp only [isKeyLimited, markKeyLimited]
    rw [lookup_setEntry_self]
    simp [hlt]

/-- Witness for the C7 theorem: key 1 of the example state already has
three consecutive errors, so a fourth error stores count 4 with backoff
`min(4 * 5000, 300000) = 20000` ms from now, and a default rate limit
makes the key limited 59999 ms later. -/
theorem markError_and_rateLimit_spec_witness :
    (markKeyError 500000 exampleKeyState ("key1") ("boom")).errors.lookup ("key1") =
      some ⟨4, some ("boom"), 520000⟩ ∧
    (markKeyLimited 500000 exampleKeyState ("key1") none).rateLimits.lookup ("key1") =
      some ⟨500000, 560000⟩ ∧
    isKeyLimited none 559999 (markKeyLimited 500000 exampleKeyState ("key1") none)
      ("key1") = true := by
  obtain ⟨h1, h2, h3⟩ := markError_and_rateLimit_spec 500000 exampleKeyState ("key1") ("boom")
  exact ⟨h1, h2, h3 none 559999 (by decide) (by decide)⟩

end ApiKeyManager

namespace CacheManager

/-- C6: with the manager ready and enabled and no backend fault, a
stored entry whose expires-at time is strictly in the past is reported
as a miss by `get` on either backend — in particular a SQLite row that
the background sweep has not yet deleted — and `set` overwrites whatever
entry the backend held for the derived key, storing the serialized value
with expiry `now + ttl * 1000` (TTL resolved as the per-call override or
the category or global default). -/
theorem cache_expired_miss_and_set_overwrites (cfg : CacheConfig) (backend : BackendState)
    (now : Int) (category : String) (key : Json) (henabled : cfg.enabled = true) :
    (cfg.ctype = .sqlite →
      ∀ row, backend.sqliteRows.lookup (generateKey category key) = some row →
        row.expiresAt < now →
        cacheGet cfg true backend now false category key = none) ∧
    (cfg.ctype = .redis →
      ∀ e, backend.redisStore.lookup (generateKey category key) = some e →
        e.expiresAt < now →
        cacheGet cfg true backend now false category key = none) ∧
    (∀ (value : Json) (customTTL : Option Nat),
      (cfg.ctype = .sqlite →
        (cacheSet cfg true backend now false category key value customTTL).2.sqliteRows.lookup
            (generateKey category key) =
          some ⟨stringify value, category,
            now + ((orDefault customTTL (getTTL cfg category) : Nat) : Int) * 1000, now⟩) ∧
      (cfg.ctype = .redis →
        (cacheSet cfg true backend now false category key value customTTL).2.redisStore.lookup
            (generateKey category key) =
          some ⟨stringify value,
            now + ((orDefault customTTL (getTTL cfg category) : Nat) : Int) * 1000⟩)) := by
  refine ⟨?_, ?_, ?_⟩
  · intro hctype row hrow hexp
    simp only [cacheGet, henabled]
    rw [hctype]
    simp [hrow, hexp]
  · intro hctype e hentry hexp
    simp only [cacheGet, henabled]
    rw [hctype]
    simp only [redisGet, hentry]
    have : ¬ now < e.expiresAt := by omega
    simp [this]
  · intro value customTTL
    constructor
    · intro hctype
      simp only [cacheSet, henabled]
      rw [hctype]
      simp [lookup_setEntry_self]
    · intro hctype
      simp only [cacheSet, henabled]
      rw [hctype]
      simp [lookup_setEntry_self]

/-- Witness for the C6 theorem: a SQLite row expired at time 5 is a miss
at time 10, and a set at time 10 with TTL 2 s overwrites the row with
expiry 12000. -/
theorem cache_expired_miss_and_set_overwrites_witness :
    cacheGet ⟨true, .sqlite, [], none⟩ true
      ⟨[], [((generateKey ("page") (Json.str ("u"))), ⟨("old"), ("page"), 5, 1⟩)]⟩
      10 false ("page") (Json.str ("u")) = none ∧
    (cacheSet ⟨true, .sqlite, [], none⟩ true
      ⟨[], [((generateKey ("page") (Json.str ("u"))), ⟨("old"), ("page"), 5, 1⟩)]⟩
      10 false ("page") (Json.str ("u")) (Json.num 7) (some 2)).2.sqliteRows.lookup
        (generateKey ("page") (Json.str ("u"))) =
      some ⟨("7"), ("page"), 2010, 10⟩ := by
  obtain ⟨h1, _, h3⟩ := cache_expired_miss_and_set_overwrites
    ⟨true, .sqlite, [], none⟩
    ⟨[], [((generateKey ("page") (Json.str ("u"))), ⟨("old"), ("page"), 5, 1⟩)]⟩
    10 ("page") (Json.str ("u")) rfl
  refine ⟨h1 rfl ⟨("old"), ("page"), 5, 1⟩ ?_ (by decide), ?_⟩
  · exact lookup_setEntry_self [] (generateKey ("page") (Json.str ("u"))) _ ▸ by
      simp [List.lookup]
  · have h4 := (h3 (Json.num 7) (some 2)).1 rfl
    exact h4

end CacheManager

namespace CacheManager

/-- C10: every public cache operation is total at the interface: when
the manager is not ready or caching is disabled, `get` reports a miss
and `set`/`delete`/`clear` report `false` without touching the backend;
and when the backend throws during the operation (`fault = true`), the
catch blocks again yield a miss or `false` with the backend unchanged,
instead of propagating the error. -/
theorem cache_interface_total (cfg : CacheConfig) (ready : Bool) (backend : BackendState)
    (now : Int) (fault : Bool) (category : String) (key value : Json)
    (customTTL : Option Nat) :
    (ready = false ∨ cfg.enabled = false →
      cacheGet cfg ready backend now fault category key = none ∧
      cacheSet cfg ready backend now fault category key value customTTL = (false, backend) ∧
      cacheDelete cfg ready backend fault category key = (false, backend) ∧
      cacheClear cfg ready backend fault category = (false, backend)) ∧
    (fault = true →
      cacheGet cfg ready backend now fault category key = none ∧
      cacheSet cfg ready backend now fault category key value customTTL = (false, backend) ∧
      cacheDelete cfg ready backend fault category key = (false, backend) ∧
      cacheClear cfg ready backend fault category = (false, backend)) := by
  constructor
  · intro h
    have hcond : ¬ ready = true ∨ ¬ cfg.enabled = true := by
      rcases h with h | h <;> simp [h]
    refine ⟨?_, ?_, ?_, ?_⟩ <;>
      · simp only [cacheGet, cacheSet, cacheDelete, cacheClear]
        rw [if_pos hcond]
  · intro hfault
    subst hfault
    by_cases hcond : ¬ ready = true ∨ ¬ cfg.enabled = true
    · refine ⟨?_, ?_, ?_, ?_⟩ <;>
        · simp only [cacheGet, cacheSet, cacheDelete, cacheClear]
          rw [if_pos hcond]
    · refine ⟨?_, ?_, ?_, ?_⟩ <;>
        · simp only [cacheGet, cacheSet, cacheDelete, cacheClear]
          rw [if_neg hcond]
          simp

/-- Witness for the C10 theorem: a disabled manager misses and refuses a
write; an enabled, ready manager whose backend throws also misses and
refuses the write, leaving the backend as it was. -/
theorem cache_interface_total_witness :
    (cacheGet ⟨false, .sqlite, [], none⟩ false ⟨[], []⟩ 0 false ("page") (Json.str ("u")) =
      none ∧
     cacheSet ⟨false, .sqlite, [], none⟩ false ⟨[], []⟩ 0 false ("page") (Json.str ("u"))
       (Json.num 1) none = (false, ⟨[], []⟩)) ∧
    (cacheGet ⟨true, .sqlite, [], none⟩ true ⟨[], []⟩ 0 true ("page") (Json.str ("u")) =
      none ∧
     cacheSet ⟨true, .sqlite, [], none⟩ true ⟨[], []⟩ 0 true ("page") (Json.str ("u"))
       (Json.num 1) none = (false, ⟨[], []⟩)) := by
  have h1 := (cache_interface_total ⟨false, .sqlite, [], none⟩ false ⟨[], []⟩ 0 false
    ("page") (Json.str ("u")) (Json.num 1) none).1 (Or.inl rfl)
  have h2 := (cache_interface_total ⟨true, .sqlite, [], none⟩ true ⟨[], []⟩ 0 true
    ("page") (Json.str ("u")) (Json.num 1) none).2 rfl
  exact ⟨⟨h1.1, h1.2.1⟩, ⟨h2.1, h2.2.1⟩⟩

end CacheManager

/-- A SHA-256 digest always consists of eight words. -/
theorem sha256_length (msg : List Nat) : (sha256 msg).length = 8 := by
  have hstep : ∀ (l : List (List Nat)) (hs : List Nat), hs.length = 8 →
      (l.foldl processBlock hs).length = 8 := by
    intro l
    induction l with
    | nil => intro hs h; simpa using h
    | cons b t ih =>
        intro hs h
        simp only [List.foldl]
        apply ih
        simp [processBlock]
  exact hstep _ shaH0 (by decide)

/-- Each digest word renders as eight hex characters. -/
theorem wordHex_length (w : Nat) : (wordHex w).length = 8 := by simp [wordHex]

/-- The hex digest is always 64 characters long. -/
theorem sha256Hex_data_length (msg : List Nat) : (sha256Hex msg).data.length = 64 := by
  show ((sha256 msg).flatMap wordHex).length = 64
  rw [List.length_flatMap]
  have hmap : List.map (List.length ∘ wordHex) (sha256 msg) =
      List.map (fun _ => 8) (sha256 msg) := by
    apply List.map_congr_left
    intro w _
    exact wordHex_length w
  rw [hmap, List.map_const', List.sum_replicate, sha256_length, smul_eq_mul]

namespace CacheManager

/-- Equality of derived cache keys forces equality of the category
namespaces: the hex digest suffix has fixed length 64, so the prefixes
up to the colon separator must agree. -/
theorem generateKey_category_inj (c1 c2 : String) (d1 d2 : Json)
    (h : generateKey c1 d1 = generateKey c2 d2) : c1 = c2 := by
  have hd : (c1 ++ ":" ++ sha256Hex (strBytes (hashInput d1))).data =
      (c2 ++ ":" ++ sha256Hex (strBytes (hashInput d2))).data := by
    rw [show c1 ++ ":" ++ sha256Hex (strBytes (hashInput d1)) = generateKey c1 d1 from rfl, h]
    rfl
  rw [String.data_append, String.data_append, String.data_append, String.data_append] at hd
  have h1 := List.append_inj' hd
    (by rw [sha256Hex_data_length, sha256Hex_data_length])
  have h2 := List.append_inj' h1.1 rfl
  have h3 : c1.data = c2.data := h2.1
  cases c1
  cases c2
  exact congrArg String.mk h3

/-- C8 counterexample: the two objects listing the same fields in
opposite orders are semantically equal as JSON objects (their field
lists are permutations of one another, and objects have unique keys),
yet `generateKey` derives different cache keys for them, because
`JSON.stringify` serializes fields in insertion order and is therefore
not a canonical serialization. -/
theorem generateKey_not_semantic : 
    List.Perm [(("a"), Json.num 1), (("b"), Json.num 2)]
      [(("b"), Json.num 2), (("a"), Json.num 1)] ∧
    generateKey ("t") (Json.obj [(("a"), Json.num 1), (("b"), Json.num 2)]) ≠
      generateKey ("t") (Json.obj [(("b"), Json.num 2), (("a"), Json.num 1)]) := by
  constructor
  · exact List.Perm.swap _ _ _
  · decide

/-- C8 (amended): key derivation is deterministic in the serialized key
material — two calls whose parameters serialize to the same string under
the (insertion-order-sensitive) `JSON.stringify` rule derive the same
key for the same category — and keys of distinct categories never
collide, because the fixed-length hex digest makes the category prefix
recoverable from the key. -/
theorem generateKey_deterministic_and_namespaced :
    (∀ (category : String) (d1 d2 : Json), hashInput d1 = hashInput d2 →
      generateKey category d1 = generateKey category d2) ∧
    (∀ (c1 c2 : String) (d1 d2 : Json),
      generateKey c1 d1 = generateKey c2 d2 → c1 = c2) := by
  constructor
  · intro category d1 d2 h
    simp only [generateKey, h]
  · exact generateKey_category_inj

/-- Witness for the amended C8 theorem: the string `"5"` and the number
`5` serialize to the same hashed input, so they derive the same key; and
a concrete key equality forces category equality. -/
theorem generateKey_deterministic_and_namespaced_witness :
    generateKey ("t") (Json.str ("5")) = generateKey ("t") (Json.num 5) :=
  generateKey_deterministic_and_namespaced.1 ("t") (Json.str ("5")) (Json.num 5) (by decide)

end CacheManager
